import Mathlib

/-!
Verification development for the notely-frontend repository.

The client-side core is embedded shallowly:
* the Note Store (src/stores/noteStore.ts) as a record of collections plus
  one transition function per store action (each network outcome is an
  explicit parameter, since the store mutates state only at the resumption
  point after the awaited call);
* the Session/Auth Store (authStore) likewise, with the persisted
  localStorage pair modelled as an explicit record;
* the HTTP gateway's response-error interceptor (src/utils/api.ts) as a
  function from an error record to the normalized message string;
* the markdown utilities (markdownUtils): extractSynopsis is embedded
  pass-by-pass over lists of characters, one Lean function per regex
  replacement of the source.

JavaScript strings are modelled as List Char (the inputs of interest are
ASCII, where code-unit indexing and codepoint indexing agree); JavaScript
truthiness of a string is "non-empty", of null/undefined "false".
-/

/-! ## Data model: Note (src/types/Note.ts) -/

/-- The denormalized author snapshot carried on a note. -/
structure AuthorSnapshot where
  id : String
  username : String
  firstName : Option String
  lastName : Option String
  avatar : Option String
deriving DecidableEq, Repr

/-- The Note entity of src/types/Note.ts. -/
structure Note where
  id : String
  title : String
  synopsis : String
  content : String
  authorId : String
  author : Option AuthorSnapshot
  isDeleted : Bool
  timeSlot : Option String
  createdAt : String
  updatedAt : String
deriving DecidableEq, Repr

/-- A sample-note builder used by concrete witnesses and counterexamples. -/
def mkNote (id : String) (title : String) (deleted : Bool) : Note :=
  { id := id, title := title, synopsis := "", content := "",
    authorId := "author-1", author := none, isDeleted := deleted,
    timeSlot := none, createdAt := "", updatedAt := "" }

/-! ## Note Store state (src/stores/noteStore.ts) -/

/-- The state held by useNoteStore: active notes, trashed notes, the
current-note slot, the pending flag and the last error message. -/
structure NoteStoreState where
  notes : List Note
  deletedNotes : List Note
  currentNote : Option Note
  loading : Bool
  error : Option String
deriving DecidableEq, Repr

/-- The initial state of the note store. -/
def initialNoteState : NoteStoreState :=
  { notes := [], deletedNotes := [], currentNote := none,
    loading := false, error := none }

/-- Success path of fetchNotes: the active collection is replaced wholesale
with the server listing (error was reset at operation start, loading cleared
at completion). -/
def fetchNotesOk (s : NoteStoreState) (resp : List Note) : NoteStoreState :=
  { s with notes := resp, loading := false, error := none }

/-- Success path of fetchDeletedNotes: the trash collection is replaced
wholesale with the server listing. -/
def fetchDeletedNotesOk (s : NoteStoreState) (resp : List Note) : NoteStoreState :=
  { s with deletedNotes := resp, loading := false, error := none }

/-- Success path of fetchNoteById: only the current-note slot is replaced. -/
def fetchNoteByIdOk (s : NoteStoreState) (resp : Note) : NoteStoreState :=
  { s with currentNote := some resp, loading := false, error := none }

/-- Success path of createNote: the server-returned note is prepended to the
active collection. -/
def createNoteOk (s : NoteStoreState) (newNote : Note) : NoteStoreState :=
  { s with notes := newNote :: s.notes, loading := false, error := none }

/-- Success path of updateNote: every active entry whose id equals the given
id is replaced by the server-returned note, and the current-note slot is set
to the server-returned note (the source sets currentNote unconditionally). -/
def updateNoteOk (s : NoteStoreState) (id : String) (updatedNote : Note) :
    NoteStoreState :=
  { s with
    notes := s.notes.map fun n => if n.id = id then updatedNote else n,
    currentNote := some updatedNote,
    loading := false, error := none }

/-- Success path of deleteNote: entries with the given id are filtered out of
the active collection; the trash collection is not touched. -/
def deleteNoteOk (s : NoteStoreState) (id : String) : NoteStoreState :=
  { s with
    notes := s.notes.filter fun n => n.id ≠ id,
    loading := false, error := none }

/-- Success path of restoreNote: the entry is filtered out of the trash
collection and the server-returned note is prepended to the active one. -/
def restoreNoteOk (s : NoteStoreState) (id : String) (restoredNote : Note) :
    NoteStoreState :=
  { s with
    deletedNotes := s.deletedNotes.filter fun n => n.id ≠ id,
    notes := restoredNote :: s.notes,
    loading := false, error := none }

/-- Failure path shared by every note-store action: the error message (or the
action's fallback text when the message is empty, mirroring the JavaScript
short-circuit on a falsy message) is recorded and the pending flag cleared. -/
def noteOpFailed (s : NoteStoreState) (msg fallback : String) : NoteStoreState :=
  { s with error := some (if msg = "" then fallback else msg), loading := false }

/-- clearError of the note store. -/
def noteClearError (s : NoteStoreState) : NoteStoreState :=
  { s with error := none }

/-! ## Claim C1: updateNote frame -/

/-- A concrete note-store state for C1: the current-note slot holds note "b"
while the active collection holds note "a". -/
def c1State : NoteStoreState :=
  { notes := [mkNote "a" "A" false], deletedNotes := [],
    currentNote := some (mkNote "b" "B" false), loading := false, error := none }

/-- The server-returned updated note for C1. -/
def c1Upd : Note := mkNote "a" "A2" false

/-- C1 counterexample: the claim says the current-note slot is updated only
if its id matches the updated id, otherwise it is unchanged. In the source,
updateNote sets currentNote to the server-returned note unconditionally:
here the slot holds note "b", note "a" is updated, and the slot changes. -/
theorem c1_counterexample :
    (updateNoteOk c1State "a" c1Upd).currentNote = some c1Upd ∧
    (updateNoteOk c1State "a" c1Upd).currentNote ≠ c1State.currentNote := by
  constructor
  · rfl
  · decide

/-- C1 (amended): on a successful updateNote, the active collection keeps its
length and order, every entry whose id matches is replaced in place by the
server-returned note, every other entry is unchanged, the trash collection is
unchanged, and the current-note slot is unconditionally replaced by the
server-returned note. -/
theorem c1_updateNote_frame (s : NoteStoreState) (id : String) (upd : Note) :
    (updateNoteOk s id upd).notes.length = s.notes.length ∧
    (∀ (i : Nat) (n : Note), s.notes[i]? = some n → n.id = id →
      (updateNoteOk s id upd).notes[i]? = some upd) ∧
    (∀ (i : Nat) (n : Note), s.notes[i]? = some n → n.id ≠ id →
      (updateNoteOk s id upd).notes[i]? = some n) ∧
    (updateNoteOk s id upd).currentNote = some upd ∧
    (updateNoteOk s id upd).deletedNotes = s.deletedNotes := by
  refine ⟨by simp [updateNoteOk], ?_, ?_, rfl, rfl⟩
  · intro i n h hid
    simp only [updateNoteOk, List.getElem?_map, h, Option.map_some']
    simp [hid]
  · intro i n h hid
    simp only [updateNoteOk, List.getElem?_map, h, Option.map_some']
    simp [hid]

/-- C1 witness: the amended frame theorem applied at a concrete state. -/
theorem c1_witness :
    (updateNoteOk c1State "a" c1Upd).notes[0]? = some c1Upd ∧
    (updateNoteOk c1State "a" c1Upd).deletedNotes = c1State.deletedNotes := by
  refine ⟨?_, ((c1_updateNote_frame c1State "a" c1Upd).2.2.2.2)⟩
  exact (c1_updateNote_frame c1State "a" c1Upd).2.1 0 (mkNote "a" "A" false)
    rfl rfl

/-! ## Claim C5: deleteNote removes exactly the matching entry -/

/-- Helper: a list with exactly one entry satisfying p loses exactly one
element when the satisfying entries are filtered out. -/
theorem length_filter_not_of_countP_one {α : Type} (p : α → Bool) (l : List α)
    (h : l.countP p = 1) :
    (l.filter fun a => !p a).length + 1 = l.length := by
  induction l with
  | nil => simp at h
  | cons a t ih =>
    rw [List.countP_cons] at h
    rw [List.filter_cons]
    cases hp : p a with
    | true =>
      rw [hp] at h
      simp at h
      have hfe : (t.filter fun a => !p a) = t := by
        rw [List.filter_eq_self]
        intro b hb
        simp [h b hb]
      simp [hfe]
    | false =>
      rw [hp] at h
      simp at h
      have hlen := ih h
      simp
      omega

/-- C5: if the active collection contains exactly one entry with the given
id, a successful deleteNote shrinks the active collection by exactly one
entry, keeps the surviving entries as a sublist (order and content
unchanged), keeps exactly the non-matching entries, and leaves the trash
collection untouched. -/
theorem c5_deleteNote (s : NoteStoreState) (id : String)
    (h : s.notes.countP (fun n => n.id = id) = 1) :
    (deleteNoteOk s id).notes.length + 1 = s.notes.length ∧
    (deleteNoteOk s id).notes.Sublist s.notes ∧
    (∀ n, n ∈ (deleteNoteOk s id).notes ↔ n ∈ s.notes ∧ n.id ≠ id) ∧
    (deleteNoteOk s id).deletedNotes = s.deletedNotes := by
  have hgen := length_filter_not_of_countP_one
    (fun n : Note => decide (n.id = id)) s.notes h
  have heq : (s.notes.filter fun n => n.id ≠ id)
      = s.notes.filter fun n => !(decide (n.id = id)) :=
    List.filter_congr (fun a _ => by simp)
  refine ⟨?_, List.filter_sublist _, ?_, rfl⟩
  · show (s.notes.filter fun n => n.id ≠ id).length + 1 = s.notes.length
    rw [heq]
    exact hgen
  · intro n
    simp [deleteNoteOk, List.mem_filter]

/-- A concrete note-store state for the C5 witness: two active notes, one
trashed note. -/
def c5State : NoteStoreState :=
  { notes := [mkNote "a" "A" false, mkNote "b" "B" false],
    deletedNotes := [mkNote "c" "C" true], currentNote := none,
    loading := false, error := none }

/-- C5 witness: deleting note "a" from a two-note collection at a concrete
state. -/
theorem c5_witness :
    (deleteNoteOk c5State "a").notes.length + 1 = 2 ∧
    (deleteNoteOk c5State "a").deletedNotes = [mkNote "c" "C" true] := by
  have hc := c5_deleteNote c5State "a" (by decide)
  exact ⟨hc.1, hc.2.2.2⟩

/-! ## Claim C8: the active/trash disjointness invariant -/

/-- One completed note-store action: each success constructor carries the
payload the awaited network call resolved with; failed covers every failure
path (message plus the action's fallback text). -/
inductive NoteOp where
  | fetchNotesOk (resp : List Note)
  | fetchDeletedNotesOk (resp : List Note)
  | fetchNoteByIdOk (resp : Note)
  | createNoteOk (resp : Note)
  | updateNoteOk (id : String) (resp : Note)
  | deleteNoteOk (id : String)
  | restoreNoteOk (id : String) (resp : Note)
  | failed (msg fallback : String)
  | clearError

/-- The state transition performed by one completed note-store action. -/
def noteStep (s : NoteStoreState) : NoteOp → NoteStoreState
  | .fetchNotesOk resp => fetchNotesOk s resp
  | .fetchDeletedNotesOk resp => fetchDeletedNotesOk s resp
  | .fetchNoteByIdOk resp => fetchNoteByIdOk s resp
  | .createNoteOk resp => createNoteOk s resp
  | .updateNoteOk id resp => updateNoteOk s id resp
  | .deleteNoteOk id => deleteNoteOk s id
  | .restoreNoteOk id resp => restoreNoteOk s id resp
  | .failed msg fallback => noteOpFailed s msg fallback
  | .clearError => noteClearError s

/-- The invariant claimed for the note store: no trashed note in the active
collection, no live note in the trash collection, and the collections are
disjoint by id. -/
def NoteInvariant (s : NoteStoreState) : Prop :=
  (∀ n ∈ s.notes, n.isDeleted = false) ∧
  (∀ n ∈ s.deletedNotes, n.isDeleted = true) ∧
  (∀ n ∈ s.notes, ∀ m ∈ s.deletedNotes, n.id ≠ m.id)

/-- States reachable from the initial empty store by any sequence of
completed actions, with arbitrary server payloads. -/
inductive NoteReachable : NoteStoreState → Prop where
  | init : NoteReachable initialNoteState
  | step (s : NoteStoreState) (op : NoteOp) :
      NoteReachable s → NoteReachable (noteStep s op)

/-- A trashed note that a fetchNotes response may nevertheless carry. -/
def c8Bad : Note := mkNote "x" "X" true

/-- C8 counterexample: the store itself never inspects isDeleted, so a single
fetchNotes completion whose payload carries a note with isDeleted = true
yields a reachable state whose active collection holds a trashed note. -/
theorem c8_counterexample :
    NoteReachable (noteStep initialNoteState (NoteOp.fetchNotesOk [c8Bad])) ∧
    ¬ NoteInvariant (noteStep initialNoteState (NoteOp.fetchNotesOk [c8Bad])) := by
  constructor
  · exact NoteReachable.step _ _ NoteReachable.init
  · intro hinv
    have hmem : c8Bad ∈ (noteStep initialNoteState
        (NoteOp.fetchNotesOk [c8Bad])).notes := by
      simp [noteStep, fetchNotesOk]
    have := hinv.1 c8Bad hmem
    simp [c8Bad, mkNote] at this

/-- Well-formedness of one action's payload relative to the current state:
what a correct backend returns (listings of the right kind whose ids do not
collide with the opposite collection, and a restore response reporting the
restored id as live). -/
def NoteOpOk (s : NoteStoreState) : NoteOp → Prop
  | .fetchNotesOk resp => (∀ n ∈ resp, n.isDeleted = false) ∧
      (∀ n ∈ resp, ∀ m ∈ s.deletedNotes, n.id ≠ m.id)
  | .fetchDeletedNotesOk resp => (∀ n ∈ resp, n.isDeleted = true) ∧
      (∀ n ∈ s.notes, ∀ m ∈ resp, n.id ≠ m.id)
  | .fetchNoteByIdOk _ => True
  | .createNoteOk resp => resp.isDeleted = false ∧
      (∀ m ∈ s.deletedNotes, resp.id ≠ m.id)
  | .updateNoteOk _ resp => resp.isDeleted = false ∧
      (∀ m ∈ s.deletedNotes, resp.id ≠ m.id)
  | .deleteNoteOk _ => True
  | .restoreNoteOk id resp => resp.isDeleted = false ∧ resp.id = id
  | .failed _ _ => True
  | .clearError => True

/-- States reachable from the initial empty store when every completed
action's payload is well-formed for the state it lands in. -/
inductive NoteGoodReachable : NoteStoreState → Prop where
  | init : NoteGoodReachable initialNoteState
  | step (s : NoteStoreState) (op : NoteOp) :
      NoteGoodReachable s → NoteOpOk s op → NoteGoodReachable (noteStep s op)

/-- C8 (amended): the disjointness invariant holds in every state reachable
from the initial empty store, provided each completed action carries a
well-formed server payload; the store itself performs no isDeleted checks,
so the unconditional claim fails (see the counterexample). -/
theorem c8_invariant (s : NoteStoreState) (h : NoteGoodReachable s) :
    NoteInvariant s := by
  induction h with
  | init =>
    refine ⟨?_, ?_, ?_⟩ <;> intro n hn <;> simp [initialNoteState] at hn
  | step s op hs hop ih =>
    obtain ⟨h1, h2, h3⟩ := ih
    cases op with
    | fetchNotesOk resp =>
      exact ⟨hop.1, h2, hop.2⟩
    | fetchDeletedNotesOk resp =>
      exact ⟨h1, hop.1, hop.2⟩
    | fetchNoteByIdOk resp =>
      exact ⟨h1, h2, h3⟩
    | createNoteOk resp =>
      refine ⟨?_, h2, ?_⟩
      · intro n hn
        rcases List.mem_cons.mp hn with rfl | hmem
        · exact hop.1
        · exact h1 n hmem
      · intro n hn m hm
        rcases List.mem_cons.mp hn with rfl | hmem
        · exact hop.2 m hm
        · exact h3 n hmem m hm
    | updateNoteOk id resp =>
      refine ⟨?_, h2, ?_⟩
      · intro n hn
        rcases List.mem_map.mp hn with ⟨a, ha, hfa⟩
        by_cases hid : a.id = id
        · rw [if_pos hid] at hfa
          rw [← hfa]
          exact hop.1
        · rw [if_neg hid] at hfa
          rw [← hfa]
          exact h1 a ha
      · intro n hn m hm
        rcases List.mem_map.mp hn with ⟨a, ha, hfa⟩
        by_cases hid : a.id = id
        · rw [if_pos hid] at hfa
          rw [← hfa]
          exact hop.2 m hm
        · rw [if_neg hid] at hfa
          rw [← hfa]
          exact h3 a ha m hm
    | deleteNoteOk id =>
      refine ⟨?_, h2, ?_⟩
      · intro n hn
        exact h1 n (List.mem_filter.mp hn).1
      · intro n hn m hm
        exact h3 n (List.mem_filter.mp hn).1 m hm
    | restoreNoteOk id resp =>
      refine ⟨?_, ?_, ?_⟩
      · intro n hn
        rcases List.mem_cons.mp hn with rfl | hmem
        · exact hop.1
        · exact h1 n hmem
      · intro m hm
        exact h2 m (List.mem_filter.mp hm).1
      · intro n hn m hm
        have hm' := List.mem_filter.mp hm
        have hmne : m.id ≠ id := by simpa using hm'.2
        rcases List.mem_cons.mp hn with rfl | hmem
        · rw [hop.2]
          exact fun hc => hmne hc.symm
        · exact h3 n hmem m hm'.1
    | failed msg fallback =>
      exact ⟨h1, h2, h3⟩
    | clearError =>
      exact ⟨h1, h2, h3⟩

/-- C8 witness: the amended invariant theorem applied to the state reached by
one well-formed fetchNotes completion. -/
theorem c8_witness :
    NoteInvariant (noteStep initialNoteState
      (NoteOp.fetchNotesOk [mkNote "a" "A" false])) := by
  refine c8_invariant _ (NoteGoodReachable.step _ _ NoteGoodReachable.init ?_)
  refine ⟨?_, ?_⟩
  · intro n hn
    simp at hn
    simp [hn, mkNote]
  · intro n hn m hm
    simp [initialNoteState] at hm

/-! ## Session/Auth Store (authStore) -/

/-- The User identity record of src/types/User.ts. -/
structure User where
  id : String
  email : String
  username : String
  firstName : Option String
  lastName : Option String
  profileImage : Option String
  createdAt : String
  updatedAt : String
deriving DecidableEq, Repr

/-- A sample user for concrete witnesses. -/
def mkUser : User :=
  { id := "u1", email := "u1@mail", username := "u1", firstName := none,
    lastName := none, profileImage := none, createdAt := "", updatedAt := "" }

/-- The persisted localStorage pair read and written by the auth store: the
"token" key and the serialized "user" key; none models an absent key. -/
structure AuthStorage where
  token : Option String
  user : Option String
deriving DecidableEq, Repr

/-- JavaScript truthiness of a possibly-absent string: absent, null and the
empty string are falsy. -/
def truthyStr : Option String → Bool
  | none => false
  | some s => s != ""

/-- The state held by useAuthStore. -/
structure AuthState where
  user : Option User
  token : Option String
  loading : Bool
  error : Option String
  isAuthenticated : Bool
deriving DecidableEq, Repr

/-- The hydrated fields produced by getInitialState. -/
structure AuthHydration where
  user : Option User
  token : Option String
  isAuthenticated : Bool
deriving DecidableEq, Repr

/-- getInitialState of the auth store. JSON.parse is a runtime primitive and
is passed in explicitly: parse str = none models a parse exception (the
source does not catch it, so hydration itself fails, modelled by the outer
none); parse str = some none models a successfully parsed falsy value (such
as the JSON text "null"); parse str = some (some u) a parsed user object. A
stored empty-string user is falsy and skips parsing altogether, and the
token is passed through independently of the user. -/
def getInitialState (parse : String → Option (Option User))
    (st : AuthStorage) : Option AuthHydration :=
  match st.user with
  | none => some { user := none, token := st.token, isAuthenticated := false }
  | some ustr =>
    if ustr = "" then
      some { user := none, token := st.token, isAuthenticated := false }
    else
      match parse ustr with
      | none => none
      | some u =>
        some { user := u, token := st.token,
               isAuthenticated := truthyStr st.token && u.isSome }

/-- The store state built from a successful hydration (the create callback
spreads getInitialState then adds loading = false, error = null). -/
def mkAuthState (h : AuthHydration) : AuthState :=
  { user := h.user, token := h.token, isAuthenticated := h.isAuthenticated,
    loading := false, error := none }

/-- login, from request start to completion. The network outcome of the
awaited gateway call is explicit; serialize stands for JSON.stringify. On
success the pair is persisted (setAuthData) and the store transitions to
Authenticated; on failure the message (or "Login failed" when the thrown
message is empty/falsy) is recorded and the error is re-thrown, which the
third component surfaces to the caller. -/
def login (serialize : User → String) (s : AuthState) (st : AuthStorage)
    (outcome : Except String (User × String)) :
    AuthState × AuthStorage × Except String Unit :=
  match outcome with
  | .ok (u, t) =>
    ({ s with user := some u, token := some t, isAuthenticated := true,
              loading := false, error := none },
     { token := some t, user := some (serialize u) }, .ok ())
  | .error msg =>
    ({ s with loading := false,
              error := some (if msg = "" then "Login failed" else msg) },
     st, .error msg)

/-- logout: clearAuthData removes both persisted keys, and the store clears
user, token, isAuthenticated and error (loading is not touched). It is a
pure, total, synchronous function of the state: no network outcome
parameter, hence no failure case. -/
def logout (s : AuthState) (_st : AuthStorage) : AuthState × AuthStorage :=
  ({ s with user := none, token := none, isAuthenticated := false,
            error := none },
   { token := none, user := none })

/-- clearError of the auth store. -/
def authClearError (s : AuthState) : AuthState :=
  { s with error := none }

/-! ## Claim C2: hydration and the user/credential pairing -/

/-- Persisted storage holding a token but no user record. -/
def c2Storage : AuthStorage := { token := some "tok", user := none }

/-- C2 counterexample: the claim says user and credential are both present or
both absent in every state, hydration included, and that a malformed
persisted value makes both absent. In the source the two keys are hydrated
independently: a stored token with no stored user yields a state with the
token present and the user absent; and a stored user that does not parse
makes hydration throw instead of failing closed. -/
theorem c2_counterexample :
    getInitialState (fun _ => none) c2Storage
      = some { user := none, token := some "tok", isAuthenticated := false } ∧
    getInitialState (fun _ => none)
      { token := some "tok", user := some "notjson" } = none := by
  exact ⟨rfl, rfl⟩

/-- C2 (amended): whenever hydration succeeds, isAuthenticated is exactly the
conjunction of token truthiness and user presence (so the store never starts
Authenticated with one of the two missing), and the token field is the
persisted token unchanged — the fields themselves are hydrated
independently, and a stored non-empty user that fails to parse aborts
hydration with an exception rather than failing closed. -/
theorem c2_hydration (parse : String → Option (Option User))
    (st : AuthStorage) :
    (∀ h, getInitialState parse st = some h →
      h.isAuthenticated = (truthyStr h.token && h.user.isSome) ∧
      h.token = st.token) ∧
    (∀ ustr, st.user = some ustr → ustr ≠ "" → parse ustr = none →
      getInitialState parse st = none) := by
  constructor
  · intro h hh
    cases hu : st.user with
    | none =>
      simp only [getInitialState, hu] at hh
      cases hh
      exact ⟨by simp, rfl⟩
    | some ustr =>
      by_cases he : ustr = ""
      · simp only [getInitialState, hu, if_pos he] at hh
        cases hh
        exact ⟨by simp, rfl⟩
      · simp only [getInitialState, hu, if_neg he] at hh
        cases hp : parse ustr with
        | none => rw [hp] at hh; cases hh
        | some u =>
          rw [hp] at hh
          cases hh
          exact ⟨rfl, rfl⟩
  · intro ustr hu hne hp
    simp only [getInitialState, hu, if_neg hne, hp]

/-- C2 witness: the amended hydration theorem applied to a concrete storage
with a token and a parseable user, and to one with an unparseable user. -/
theorem c2_witness :
    ({ user := some mkUser, token := some "tok", isAuthenticated := true
        : AuthHydration }).isAuthenticated
      = (truthyStr (some "tok") && (some mkUser).isSome) ∧
    getInitialState (fun _ => none)
      { token := some "tok", user := some "x" } = none := by
  constructor
  · exact ((c2_hydration (fun _ => some (some mkUser))
      { token := some "tok", user := some "{}" }).1
      { user := some mkUser, token := some "tok", isAuthenticated := true }
      rfl).1
  · exact (c2_hydration (fun _ => none)
      { token := some "tok", user := some "x" }).2 "x" rfl (by decide) rfl

/-! ## Claim C7: failing login, then clearError -/

/-- The Anonymous store state (no prior login). -/
def anonState : AuthState :=
  { user := none, token := none, loading := false, error := none,
    isAuthenticated := false }

/-- C7: from an Anonymous state, a failing login leaves isAuthenticated
false and user/credential absent, records a non-empty error message and
re-throws the error; clearError then empties the error without touching the
authentication fields, and clearError is idempotent. -/
theorem c7_login_failure (serialize : User → String) (s : AuthState)
    (st : AuthStorage) (msg : String)
    (hu : s.user = none) (ht : s.token = none)
    (ha : s.isAuthenticated = false) :
    (login serialize s st (Except.error msg)).1.isAuthenticated = false ∧
    (login serialize s st (Except.error msg)).1.user = none ∧
    (login serialize s st (Except.error msg)).1.token = none ∧
    (login serialize s st (Except.error msg)).1.error ≠ none ∧
    (∀ m, (login serialize s st (Except.error msg)).1.error = some m →
      m ≠ "") ∧
    (login serialize s st (Except.error msg)).2.2 = Except.error msg ∧
    (authClearError (login serialize s st (Except.error msg)).1).error
      = none ∧
    (authClearError (login serialize s st (Except.error msg)).1).isAuthenticated
      = (login serialize s st (Except.error msg)).1.isAuthenticated ∧
    (authClearError (login serialize s st (Except.error msg)).1).user
      = (login serialize s st (Except.error msg)).1.user ∧
    (authClearError (login serialize s st (Except.error msg)).1).token
      = (login serialize s st (Except.error msg)).1.token ∧
    authClearError (authClearError (login serialize s st (Except.error msg)).1)
      = authClearError (login serialize s st (Except.error msg)).1 := by
  refine ⟨ha, hu, ht, ?_, ?_, rfl, rfl, rfl, rfl, rfl, rfl⟩
  · simp [login]
  · intro m hm
    simp only [login] at hm
    by_cases hmsg : msg = ""
    · rw [if_pos hmsg] at hm
      cases hm
      decide
    · rw [if_neg hmsg] at hm
      cases hm
      exact hmsg

/-- C7 witness: the failing-login theorem applied at the Anonymous state with
a concrete error message. -/
theorem c7_witness :
    (login (fun _ => "") anonState { token := none, user := none }
      (Except.error "bad credentials")).1.isAuthenticated = false ∧
    (authClearError (login (fun _ => "") anonState
      { token := none, user := none }
      (Except.error "bad credentials")).1).error = none := by
  have hc := c7_login_failure (fun _ => "") anonState
    { token := none, user := none } "bad credentials" rfl rfl rfl
  exact ⟨hc.1, hc.2.2.2.2.2.2.1⟩

/-! ## Claim C10: logout resets the error and cannot fail -/

/-- C10: logout resets the error message to absent in addition to clearing
user and credential and lowering isAuthenticated; the pending flag is the
only field left as it was, both persisted keys are removed, and logout is a
pure total function of the state (it performs no network call, hence has no
failure outcome). -/
theorem c10_logout (s : AuthState) (st : AuthStorage) :
    (logout s st).1 =
      { user := none, token := none, loading := s.loading,
        error := none, isAuthenticated := false } ∧
    (logout s st).2 = { token := none, user := none } := by
  exact ⟨rfl, rfl⟩

/-! ## HTTP Gateway error normalization (src/utils/api.ts) -/

/-- A JSON value, the shape of an axios response body. -/
inductive Json where
  | null
  | bool (b : Bool)
  | num (n : Int)
  | str (s : String)
  | arr (xs : List Json)
  | obj (fields : List (String × Json))
deriving Repr

/-- JSON string escaping for the common escapes (quote, backslash and ASCII
control characters used in practice), as JSON.stringify performs it. -/
def jsonEscape (s : String) : String :=
  String.join (s.data.map fun c =>
    if c = '"' then "\\\""
    else if c = '\\' then "\\\\"
    else if c = '\n' then "\\n"
    else if c = '\t' then "\\t"
    else if c = '\r' then "\\r"
    else String.singleton c)

/-- JSON.stringify on the model (object fields are assumed deduplicated, as
a parsed body's are). -/
def jsonStringify : Json → String
  | .null => "null"
  | .bool true => "true"
  | .bool false => "false"
  | .num n => toString n
  | .str s => "\"" ++ jsonEscape s ++ "\""
  | .arr xs => "[" ++ String.intercalate ","
      (xs.attach.map fun x => jsonStringify x.1) ++ "]"
  | .obj fs => "\x7b" ++ String.intercalate ","
      (fs.attach.map fun f =>
        "\"" ++ jsonEscape f.1.1 ++ "\":" ++ jsonStringify f.1.2) ++ "\x7d"
decreasing_by
  · simp_wf
    have := List.sizeOf_lt_of_mem x.2
    omega
  · simp_wf
    have h1 := List.sizeOf_lt_of_mem f.2
    have h2 : sizeOf f.1.2 < sizeOf f.1 := by
      obtain ⟨⟨a, b⟩, hf⟩ := f
      simp
    omega

/-- JavaScript truthiness of a JSON value. -/
def jsonTruthy : Json → Bool
  | .null => false
  | .bool b => b
  | .num n => n != 0
  | .str s => s != ""
  | .arr _ => true
  | .obj _ => true

/-- Whether a JSON value is null. -/
def isNull : Json → Bool
  | .null => true
  | _ => false

/-- JavaScript String() coercion of a JSON value (array elements join with
commas, null elements joining as empty text; plain objects print as
"[object Object]"). -/
def jsToString : Json → String
  | .null => "null"
  | .bool true => "true"
  | .bool false => "false"
  | .num n => toString n
  | .str s => s
  | .arr xs => String.intercalate ","
      (xs.attach.map fun x =>
        if isNull x.1 then "" else jsToString x.1)
  | .obj _ => "[object Object]"
decreasing_by
  · simp_wf
    have := List.sizeOf_lt_of_mem x.2
    omega

/-- Property lookup on a parsed JSON object. -/
def lookupField (fs : List (String × Json)) (k : String) : Option Json :=
  (fs.find? fun f => f.fst = k).map (·.snd)

/-- typeof data === "object" (true for objects, arrays and null). -/
def isObjType : Json → Bool
  | .obj _ => true
  | .arr _ => true
  | .null => true
  | _ => false

/-- typeof data === "string". -/
def isStrType : Json → Bool
  | .str _ => true
  | _ => false

/-- data.message of a response body (undefined on non-objects). -/
def dataMessage : Json → Option Json
  | .obj fs => lookupField fs "message"
  | _ => none

/-- The response carried by a failed axios request, when one exists. -/
structure AxiosResponse where
  data : Option Json
  statusText : String
deriving Repr

/-- The error object the axios response interceptor receives: the optional
protocol response, and the transport-level error description. -/
structure AxiosError where
  response : Option AxiosResponse
  message : Option String
deriving Repr

/-- error.response?.data — the error body, when one exists. -/
def errBody (e : AxiosError) : Option Json :=
  match e.response with
  | some r => r.data
  | none => none

/-- Rules (4)-(6) of the interceptor: the transport message when truthy, else
the status text when the response exists and its status text is truthy, else
the generic fallback. -/
def fallbackMessage (e : AxiosError) : String :=
  if truthyStr e.message then e.message.getD ""
  else
    match e.response with
    | some r => if r.statusText != "" then r.statusText else "Something went wrong"
    | none => "Something went wrong"

/-- The error handler of the response interceptor in src/utils/api.ts: the
message thrown to the stores. The body branch is entered only when the body
is truthy; inside it, a typeof-object body with a truthy message property
yields that property (String-coerced), a string body yields itself, any
other typeof-object body is JSON-stringified, and a truthy body of any other
type leaves the default message in place without consulting the
transport-level fallbacks. -/
def normalizeError (e : AxiosError) : String :=
  match errBody e with
  | some d =>
    if jsonTruthy d then
      if isObjType d && (dataMessage d).elim false jsonTruthy then
        jsToString ((dataMessage d).getD Json.null)
      else if isStrType d then
        jsToString d
      else if isObjType d then
        jsonStringify d
      else
        "Something went wrong"
    else
      fallbackMessage e
  | none => fallbackMessage e

/-! ## Claim C4: error message precedence -/

/-- The message precedence exactly as the specification words it, written as
a refinement model to compare against normalizeError: (1) the message field
of a structured object body, (2) a plain string body as-is, (3) a
stringified dump of a structured body without a message field, (4) the
transport error description, (5) the protocol status text, (6) the generic
fallback; the first applicable rule wins, with no truthiness conditions. -/
def specErrorMessage (e : AxiosError) : String :=
  match errBody e with
  | some (Json.obj fs) =>
    match lookupField fs "message" with
    | some m => jsToString m
    | none => jsonStringify (Json.obj fs)
  | some (Json.str s) => s
  | some (Json.arr xs) => jsonStringify (Json.arr xs)
  | _ =>
    match e.message with
    | some m => m
    | none =>
      match e.response with
      | some r =>
        if r.statusText != "" then r.statusText else "Something went wrong"
      | none => "Something went wrong"

/-- The concrete failed request refuting the claim: the body is the plain
(empty) string, and a transport message is present. -/
def c4Error : AxiosError :=
  { response := some { data := some (Json.str ""), statusText := "Bad Request" },
    message := some "Network Error" }

/-- C4 counterexample: by the claimed precedence, rule (2) applies — the
body is a plain string — so the message would be that (empty) body; the
source checks the body's truthiness first, skips the whole body branch on
the empty string, and returns the transport message instead. -/
theorem c4_counterexample :
    normalizeError c4Error = "Network Error" ∧
    specErrorMessage c4Error = "" ∧
    normalizeError c4Error ≠ specErrorMessage c4Error := by
  have h1 : normalizeError c4Error = "Network Error" := rfl
  have h2 : specErrorMessage c4Error = "" := rfl
  refine ⟨h1, h2, ?_⟩
  rw [h1, h2]
  decide

/-- C4 (amended): the precedence holds with the source's truthiness guards —
the body branch is entered only for a truthy body; within it (1) a
typeof-object body with a truthy message property yields that property
(String-coerced), (2) a non-empty string body yields itself, (3) any other
typeof-object body yields its JSON dump, and a truthy body of any other type
yields the generic fallback directly; only when the body is absent or falsy
do (4) a non-empty transport message, then (5) a non-empty status text, then
(6) the generic fallback apply. -/
theorem c4_error_precedence (e : AxiosError) :
    (∀ fs m, errBody e = some (Json.obj fs) →
      lookupField fs "message" = some m → jsonTruthy m = true →
      normalizeError e = jsToString m) ∧
    (∀ s, errBody e = some (Json.str s) → s ≠ "" →
      normalizeError e = s) ∧
    (∀ d, errBody e = some d → jsonTruthy d = true → isObjType d = true →
      (∀ m, dataMessage d = some m → jsonTruthy m = false) →
      normalizeError e = jsonStringify d) ∧
    (∀ d, errBody e = some d → jsonTruthy d = true → isObjType d = false →
      isStrType d = false → normalizeError e = "Something went wrong") ∧
    ((∀ d, errBody e = some d → jsonTruthy d = false) →
      (∀ m, e.message = some m → m ≠ "" → normalizeError e = m) ∧
      (truthyStr e.message = false →
        (∀ r, e.response = some r → r.statusText ≠ "" →
          normalizeError e = r.statusText) ∧
        ((∀ r, e.response = some r → r.statusText = "") →
          normalizeError e = "Something went wrong"))) := by
  refine ⟨?_, ?_, ?_, ?_, ?_⟩
  · intro fs m hb hm htr
    simp only [normalizeError, hb]
    simp [isObjType, dataMessage, hm, htr]
    intro hcontra
    simp [jsonTruthy] at hcontra
  · intro s hb hne
    simp only [normalizeError, hb]
    simp [jsonTruthy, isObjType, isStrType, hne, jsToString]
  · intro d hb htr hobj hmsg
    simp only [normalizeError, hb, htr]
    have helim : (dataMessage d).elim false jsonTruthy = false := by
      cases hm : dataMessage d with
      | none => rfl
      | some m => simpa using hmsg m hm
    have hstr : isStrType d = false := by
      cases d <;> simp_all [isObjType, isStrType]
    simp [hobj, helim, hstr]
  · intro d hb htr hobj hstr
    simp only [normalizeError, hb, htr]
    simp [hobj, hstr]
  · intro hfalsy
    have hfb : normalizeError e = fallbackMessage e := by
      cases hb : errBody e with
      | none => simp only [normalizeError, hb]
      | some d =>
        have hf := hfalsy d hb
        simp only [normalizeError, hb, hf]
        simp
    constructor
    · intro m hm hne
      rw [hfb]
      simp [fallbackMessage, truthyStr, hm, hne]
    · intro hmf
      constructor
      · intro r hr hst
        rw [hfb]
        simp [fallbackMessage, hmf, hr, hst]
      · intro hst
        rw [hfb]
        cases hr : e.response with
        | none => simp [fallbackMessage, hmf, hr]
        | some r => simp [fallbackMessage, hmf, hr, hst r hr]

/-- The concrete failed request for the C4 witness: a structured body with a
message field. -/
def c4WitnessError : AxiosError :=
  { response := some
      { data := some (Json.obj [("message", Json.str "oops")]),
        statusText := "" },
    message := none }

/-- C4 witness: the amended precedence theorem applied to a structured body
with a truthy message field. -/
theorem c4_witness : normalizeError c4WitnessError = jsToString (Json.str "oops") := by
  exact (c4_error_precedence c4WitnessError).1
    [("message", Json.str "oops")] (Json.str "oops") rfl rfl rfl

/-! ## Markdown utilities (markdownUtils): extractSynopsis

Each regex replacement of the source is one scanning function. The scanners
recurse on an explicit fuel argument (initialized to the input length, which
each step strictly consumes, so the fuel never runs out on the wrapper's
call); this keeps every function computable by evaluation. -/

/-- JavaScript \s on the ASCII range (space, tab, newline, carriage return,
vertical tab, form feed); the Unicode space code points are outside the
model's alphabet. -/
def isWs (c : Char) : Bool :=
  c = ' ' || c = '\t' || c = '\n' || c = '\r' || c = '\x0b' || c = '\x0c'

/-- The text after the first occurrence of pat (none when pat never occurs):
the skipped part is the minimal one, as the non-greedy block regexes take. -/
def afterFirstSeq (pat : List Char) : List Char → Option (List Char)
  | [] => if pat = [] then some [] else none
  | c :: cs =>
    if pat.isPrefixOf (c :: cs) then some ((c :: cs).drop pat.length)
    else afterFirstSeq pat cs

/-- The text before and after the first occurrence of ch (none if absent). -/
def splitAtChar (ch : Char) : List Char → Option (List Char × List Char)
  | [] => none
  | c :: cs =>
    if c = ch then some ([], cs)
    else
      match splitAtChar ch cs with
      | some (pre, post) => some (c :: pre, post)
      | none => none

/-- One global pass of a fenced-block removal /ddd[\s\S]*?ddd/g → "": a
three-character fence with a later closing fence drops the whole block and
scanning resumes after the closer; an unclosed fence does not match and the
scan advances one character. -/
def removeFenceBlocksGo (d : Char) : Nat → List Char → List Char
  | 0, cs => cs
  | _ + 1, [] => []
  | fuel + 1, c :: cs =>
    if c = d ∧ cs.take 2 = [d, d] then
      match afterFirstSeq [d, d, d] (cs.drop 2) with
      | some rest => removeFenceBlocksGo d fuel rest
      | none => c :: removeFenceBlocksGo d fuel cs
    else c :: removeFenceBlocksGo d fuel cs

/-- Fenced-block removal at full fuel. -/
def removeFenceBlocks (d : Char) (cs : List Char) : List Char :=
  removeFenceBlocksGo d cs.length cs

/-- One global pass of the inline-code removal /`[^`]*`/g → "": a backtick
with a later closing backtick drops the span; an unclosed backtick stays. -/
def removeInlineCodeGo : Nat → List Char → List Char
  | 0, cs => cs
  | _ + 1, [] => []
  | fuel + 1, c :: cs =>
    if c = '`' then
      match splitAtChar '`' cs with
      | some (_, post) => removeInlineCodeGo fuel post
      | none => c :: removeInlineCodeGo fuel cs
    else c :: removeInlineCodeGo fuel cs

/-- Inline-code removal at full fuel. -/
def removeInlineCode (cs : List Char) : List Char :=
  removeInlineCodeGo cs.length cs

/-- Attempt to match [alt](url) at the start of the text: the alt text (no
closing bracket in it) and the rest after the closing parenthesis. -/
def matchLinkCore : List Char → Option (List Char × List Char)
  | [] => none
  | c :: cs =>
    if c = '[' then
      match splitAtChar ']' cs with
      | some (alt, r1) =>
        match r1 with
        | [] => none
        | c2 :: r2 =>
          if c2 = '(' then
            match splitAtChar ')' r2 with
            | some (_, r3) => some (alt, r3)
            | none => none
          else none
      | none => none
    else none

/-- One global pass of /!?\[([^\]]*)]\([^)]*\)/g → "$1": link and image
syntax is replaced by the label/alt text, which is emitted verbatim and not
rescanned, exactly as a replacement string is. -/
def removeLinkSyntaxGo : Nat → List Char → List Char
  | 0, cs => cs
  | _ + 1, [] => []
  | fuel + 1, c :: cs =>
    if c = '!' then
      match matchLinkCore cs with
      | some (alt, rest) => alt ++ removeLinkSyntaxGo fuel rest
      | none => c :: removeLinkSyntaxGo fuel cs
    else if c = '[' then
      match matchLinkCore (c :: cs) with
      | some (alt, rest) => alt ++ removeLinkSyntaxGo fuel rest
      | none => c :: removeLinkSyntaxGo fuel cs
    else c :: removeLinkSyntaxGo fuel cs

/-- Link/image removal at full fuel. -/
def removeLinkSyntax (cs : List Char) : List Char :=
  removeLinkSyntaxGo cs.length cs

/-- The character class [#*`_~>\|] of the markdown-symbol strip. -/
def isMdSymbol (c : Char) : Bool :=
  c = '#' || c = '*' || c = '`' || c = '_' || c = '~' || c = '>' || c = '|'

/-- The /[#*`_~>\|]/g → "" pass. -/
def removeMdSymbols (cs : List Char) : List Char :=
  cs.filter fun c => !(isMdSymbol c)

/-- After a newline: skip the whitespace run; a bullet character followed by
one more whitespace character completes the /\n\s*[-+*]\s/ match, giving the
rest (backtracking cannot help the greedy \s*, since a shorter run would put
a whitespace character where the bullet is required). -/
def afterBullet : Nat → List Char → Option (List Char)
  | 0, _ => none
  | _ + 1, [] => none
  | fuel + 1, c :: cs =>
    if isWs c then afterBullet fuel cs
    else if c = '-' || c = '+' || c = '*' then
      match cs with
      | d :: rest => if isWs d then some rest else none
      | [] => none
    else none

/-- One global pass of /\n\s*[-+*]\s/g → " ". -/
def collapseListItemsGo : Nat → List Char → List Char
  | 0, cs => cs
  | _ + 1, [] => []
  | fuel + 1, c :: cs =>
    if c = '\n' then
      match afterBullet cs.length cs with
      | some rest => ' ' :: collapseListItemsGo fuel rest
      | none => c :: collapseListItemsGo fuel cs
    else c :: collapseListItemsGo fuel cs

/-- List-item collapsing at full fuel. -/
def collapseListItems (cs : List Char) : List Char :=
  collapseListItemsGo cs.length cs

/-- One global pass replacing every maximal run of characters satisfying p
with a single space: used for /\n+/g → " " and /\s+/g → " ". -/
def collapseRunsGo (p : Char → Bool) : Nat → List Char → List Char
  | 0, cs => cs
  | _ + 1, [] => []
  | fuel + 1, c :: cs =>
    if p c then ' ' :: collapseRunsGo p fuel (cs.dropWhile p)
    else c :: collapseRunsGo p fuel cs

/-- /\n+/g → " " at full fuel. -/
def collapseNewlines (cs : List Char) : List Char :=
  collapseRunsGo (fun c => c = '\n') cs.length cs

/-- /\s+/g → " " at full fuel. -/
def collapseWs (cs : List Char) : List Char :=
  collapseRunsGo isWs cs.length cs

/-- String.prototype.trim. -/
def trimWs (cs : List Char) : List Char :=
  ((cs.dropWhile isWs).reverse.dropWhile isWs).reverse

/-- The whole plain-text derivation of extractSynopsis, pass for pass in the
order of the source. -/
def toPlainText (md : List Char) : List Char :=
  trimWs (collapseWs (collapseNewlines (collapseListItems (removeMdSymbols
    (removeLinkSyntax (removeInlineCode (removeFenceBlocks '~'
      (removeFenceBlocks '`' md))))))))

/-- JavaScript lastIndexOf(" ", i): the largest index at most i holding a
space, none when there is none (the source's -1). -/
def lastSpaceIdx (cs : List Char) (i : Nat) : Option Nat :=
  ((List.range (i + 1)).filter fun j => cs.getD j '\x00' = ' ').getLast?

/-- extractSynopsis of the source. The float comparison
lastSpace > maxLength * 0.8 is modelled exactly over the rationals as
5 * ls > 4 * maxLength; the source's -1 sentinel (no space found) always
fails that comparison and lands on maxLength, here the none branch. The
empty-input guard is the source's falsy check on the markdown argument. -/
def extractSynopsis (md : List Char) (maxLength : Nat) : List Char :=
  if md = [] then []
  else
    let plainText := toPlainText md
    if plainText.length > maxLength then
      let breakPoint :=
        match lastSpaceIdx plainText maxLength with
        | some ls => if 5 * ls > 4 * maxLength then ls else maxLength
        | none => maxLength
      trimWs (plainText.take breakPoint) ++ ['.', '.', '.']
    else plainText

/-! ### Length bounds of the plain-text passes -/

/-- dropWhile never lengthens a list. -/
theorem dropWhile_length_le (p : Char → Bool) (l : List Char) :
    (l.dropWhile p).length ≤ l.length :=
  (List.dropWhile_sublist p).length_le

/-- afterFirstSeq returns a suffix-bounded remainder. -/
theorem afterFirstSeq_length_le (pat : List Char) :
    ∀ cs rest, afterFirstSeq pat cs = some rest → rest.length ≤ cs.length := by
  intro cs
  induction cs with
  | nil =>
    intro rest h
    simp only [afterFirstSeq] at h
    split at h
    · cases h; simp
    · cases h
  | cons c cs ih =>
    intro rest h
    simp only [afterFirstSeq] at h
    split at h
    · cases h
      simp [List.length_drop]
    · have := ih rest h
      simp only [List.length_cons]
      omega

/-- splitAtChar splits the list around one occurrence. -/
theorem splitAtChar_length (ch : Char) :
    ∀ cs pre post, splitAtChar ch cs = some (pre, post) →
      pre.length + post.length + 1 = cs.length := by
  intro cs
  induction cs with
  | nil => intro pre post h; simp [splitAtChar] at h
  | cons c cs ih =>
    intro pre post h
    simp only [splitAtChar] at h
    split at h
    · cases h; simp
    · cases hrec : splitAtChar ch cs with
      | none => rw [hrec] at h; cases h
      | some pp =>
        obtain ⟨p1, p2⟩ := pp
        rw [hrec] at h
        cases h
        have := ih _ _ hrec
        simp only [List.length_cons]
        omega

/-- The fence-block pass never lengthens the text. -/
theorem removeFenceBlocksGo_length_le (d : Char) :
    ∀ fuel cs, (removeFenceBlocksGo d fuel cs).length ≤ cs.length := by
  intro fuel
  induction fuel with
  | zero => intro cs; simp [removeFenceBlocksGo]
  | succ fuel ih =>
    intro cs
    cases cs with
    | nil => simp [removeFenceBlocksGo]
    | cons c cs =>
      simp only [removeFenceBlocksGo]
      split
      · cases hx : afterFirstSeq [d, d, d] (cs.drop 2) with
        | some rest =>
          have h1 := afterFirstSeq_length_le [d, d, d] (cs.drop 2) rest hx
          have h2 := ih rest
          simp only [List.length_drop] at h1
          simp only [List.length_cons]
          omega
        | none =>
          have := ih cs
          simp only [List.length_cons]
          omega
      · have := ih cs
        simp only [List.length_cons]
        omega

/-- The inline-code pass never lengthens the text. -/
theorem removeInlineCodeGo_length_le :
    ∀ fuel cs, (removeInlineCodeGo fuel cs).length ≤ cs.length := by
  intro fuel
  induction fuel with
  | zero => intro cs; simp [removeInlineCodeGo]
  | succ fuel ih =>
    intro cs
    cases cs with
    | nil => simp [removeInlineCodeGo]
    | cons c cs =>
      simp only [removeInlineCodeGo]
      split
      · cases hx : splitAtChar '`' cs with
        | some pp =>
          obtain ⟨pre, post⟩ := pp
          have h1 := splitAtChar_length '`' cs pre post hx
          have h2 := ih post
          simp only [List.length_cons]
          omega
        | none =>
          have := ih cs
          simp only [List.length_cons]
          omega
      · have := ih cs
        simp only [List.length_cons]
        omega

/-- A successful link match consumes at least its delimiters. -/
theorem matchLinkCore_length :
    ∀ cs alt rest, matchLinkCore cs = some (alt, rest) →
      alt.length + rest.length + 4 ≤ cs.length := by
  intro cs alt rest h
  cases cs with
  | nil => simp [matchLinkCore] at h
  | cons c cs =>
    simp only [matchLinkCore] at h
    split at h
    · cases h1 : splitAtChar ']' cs with
      | none => rw [h1] at h; cases h
      | some pp =>
        obtain ⟨a1, r1⟩ := pp
        rw [h1] at h
        have hl1 := splitAtChar_length ']' cs a1 r1 h1
        cases r1 with
        | nil => cases h
        | cons c2 r2 =>
          simp only at h
          split at h
          · cases h2 : splitAtChar ')' r2 with
            | none => rw [h2] at h; cases h
            | some qq =>
              obtain ⟨u, r3⟩ := qq
              rw [h2] at h
              cases h
              have hl2 := splitAtChar_length ')' r2 _ _ h2
              simp only [List.length_cons] at hl1 ⊢
              omega
          · cases h
    · cases h

/-- The link pass never lengthens the text. -/
theorem removeLinkSyntaxGo_length_le :
    ∀ fuel cs, (removeLinkSyntaxGo fuel cs).length ≤ cs.length := by
  intro fuel
  induction fuel with
  | zero => intro cs; simp [removeLinkSyntaxGo]
  | succ fuel ih =>
    intro cs
    cases cs with
    | nil => simp [removeLinkSyntaxGo]
    | cons c cs =>
      simp only [removeLinkSyntaxGo]
      split
      · cases hx : matchLinkCore cs with
        | some pp =>
          obtain ⟨alt, rest⟩ := pp
          have h1 := matchLinkCore_length cs alt rest hx
          have h2 := ih rest
          simp only [List.length_append, List.length_cons]
          omega
        | none =>
          have := ih cs
          simp only [List.length_cons]
          omega
      · split
        · cases hx : matchLinkCore (c :: cs) with
          | some pp =>
            obtain ⟨alt, rest⟩ := pp
            have h1 := matchLinkCore_length (c :: cs) alt rest hx
            have h2 := ih rest
            simp only [List.length_append, List.length_cons] at h1 ⊢
            omega
          | none =>
            have := ih cs
            simp only [List.length_cons]
            omega
        · have := ih cs
          simp only [List.length_cons]
          omega

/-- afterBullet returns a tail of its input. -/
theorem afterBullet_length_le :
    ∀ fuel cs rest, afterBullet fuel cs = some rest → rest.length ≤ cs.length := by
  intro fuel
  induction fuel with
  | zero => intro cs rest h; simp [afterBullet] at h
  | succ fuel ih =>
    intro cs rest h
    cases cs with
    | nil => simp [afterBullet] at h
    | cons c cs =>
      simp only [afterBullet] at h
      split at h
      · have := ih cs rest h
        simp only [List.length_cons]
        omega
      · split at h
        · cases cs with
          | nil => cases h
          | cons d rest2 =>
            simp only at h
            split at h
            · cases h
              simp only [List.length_cons]
              omega
            · cases h
        · cases h

/-- The list-item pass never lengthens the text. -/
theorem collapseListItemsGo_length_le :
    ∀ fuel cs, (collapseListItemsGo fuel cs).length ≤ cs.length := by
  intro fuel
  induction fuel with
  | zero => intro cs; simp [collapseListItemsGo]
  | succ fuel ih =>
    intro cs
    cases cs with
    | nil => simp [collapseListItemsGo]
    | cons c cs =>
      simp only [collapseListItemsGo]
      split
      · cases hx : afterBullet cs.length cs with
        | some rest =>
          have h1 := afterBullet_length_le cs.length cs rest hx
          have h2 := ih rest
          simp only [List.length_cons]
          omega
        | none =>
          have := ih cs
          simp only [List.length_cons]
          omega
      · have := ih cs
        simp only [List.length_cons]
        omega

/-- The run-collapsing pass never lengthens the text. -/
theorem collapseRunsGo_length_le (p : Char → Bool) :
    ∀ fuel cs, (collapseRunsGo p fuel cs).length ≤ cs.length := by
  intro fuel
  induction fuel with
  | zero => intro cs; simp [collapseRunsGo]
  | succ fuel ih =>
    intro cs
    cases cs with
    | nil => simp [collapseRunsGo]
    | cons c cs =>
      simp only [collapseRunsGo]
      split
      · have h1 := dropWhile_length_le p cs
        have h2 := ih (cs.dropWhile p)
        simp only [List.length_cons]
        omega
      · have := ih cs
        simp only [List.length_cons]
        omega

/-- Trimming never lengthens the text. -/
theorem trimWs_length_le (cs : List Char) : (trimWs cs).length ≤ cs.length := by
  unfold trimWs
  have h1 := dropWhile_length_le isWs cs
  have h2 := dropWhile_length_le isWs (cs.dropWhile isWs).reverse
  simp only [List.length_reverse] at h2 ⊢
  omega

/-- The whole plain-text derivation never lengthens the input. -/
theorem toPlainText_length_le (md : List Char) :
    (toPlainText md).length ≤ md.length := by
  unfold toPlainText
  unfold removeFenceBlocks removeInlineCode removeLinkSyntax removeMdSymbols
    collapseListItems collapseNewlines collapseWs
  calc (trimWs _).length ≤ _ := trimWs_length_le _
  _ ≤ _ := collapseRunsGo_length_le _ _ _
  _ ≤ _ := collapseRunsGo_length_le _ _ _
  _ ≤ _ := collapseListItemsGo_length_le _ _
  _ ≤ _ := List.length_filter_le _ _
  _ ≤ _ := removeLinkSyntaxGo_length_le _ _
  _ ≤ _ := removeInlineCodeGo_length_le _ _
  _ ≤ _ := removeFenceBlocksGo_length_le _ _ _
  _ ≤ _ := removeFenceBlocksGo_length_le _ _ _

/-! ## Claims C3 and C9: extractSynopsis -/

/-- lastIndexOf(" ", i) never exceeds its fromIndex. -/
theorem lastSpaceIdx_le (cs : List Char) (i : Nat) (ls : Nat)
    (h : lastSpaceIdx cs i = some ls) : ls ≤ i := by
  unfold lastSpaceIdx at h
  have hmem : ls ∈ (List.range (i + 1)).filter
      fun j => cs.getD j '\x00' = ' ' := by
    have : ls ∈ ((List.range (i + 1)).filter
        fun j => cs.getD j '\x00' = ' ').getLast? := h ▸ rfl
    obtain ⟨hne, heq⟩ := List.mem_getLast?_eq_getLast this
    subst heq
    exact List.getLast_mem hne
  have := List.mem_range.mp (List.mem_filter.mp hmem).1
  omega

/-- On an empty input every pass is the identity. -/
theorem toPlainText_nil : toPlainText [] = [] := by decide

/-- When the derived plain text exceeds maxLength, extractSynopsis truncates
at a break point bounded by maxLength, trims, and appends the
three-character ellipsis. -/
theorem extractSynopsis_trunc (md : List Char) (maxLength : Nat)
    (h : (toPlainText md).length > maxLength) :
    ∃ bp, bp ≤ maxLength ∧
      extractSynopsis md maxLength
        = trimWs ((toPlainText md).take bp) ++ ['.', '.', '.'] := by
  have hmd : md ≠ [] := by
    intro he
    rw [he, toPlainText_nil] at h
    simp at h
  unfold extractSynopsis
  rw [if_neg hmd]
  simp only [if_pos h]
  cases hls : lastSpaceIdx (toPlainText md) maxLength with
  | none => exact ⟨maxLength, le_refl _, rfl⟩
  | some ls =>
    by_cases hgt : 5 * ls > 4 * maxLength
    · refine ⟨ls, lastSpaceIdx_le _ _ _ hls, ?_⟩
      simp [hgt]
    · refine ⟨maxLength, le_refl _, ?_⟩
      simp [hgt]

/-- When the derived plain text fits, extractSynopsis is that plain text. -/
theorem extractSynopsis_short (md : List Char) (maxLength : Nat)
    (h : (toPlainText md).length ≤ maxLength) :
    extractSynopsis md maxLength = toPlainText md := by
  by_cases hmd : md = []
  · rw [hmd, toPlainText_nil]
    rfl
  · unfold extractSynopsis
    rw [if_neg hmd]
    simp only [if_neg (by omega : ¬ (toPlainText md).length > maxLength)]

/-- C3 counterexample: on the eleven-character spaceless input with
maxLength 10, the output is thirteen characters long — the source appends a
three-character "..." after truncating, so the claimed bound
maxLength + 1 fails. -/
theorem c3_counterexample :
    (extractSynopsis "abcdefghijk".data 10).length = 13 ∧
    ¬ (extractSynopsis "abcdefghijk".data 10).length ≤ 10 + 1 := by
  constructor <;> decide

/-- C3 (amended): an input shorter than maxLength yields the
whitespace-collapsed plain text with no ellipsis; when the derived plain
text exceeds maxLength the output is a trimmed prefix plus the
three-character ellipsis, its length at most maxLength + 3 (not
maxLength + 1); and the truncation point is the last space at or before
index maxLength whenever that index is strictly greater than 80% of
maxLength (the source compares with >, not ≥), else maxLength. -/
theorem c3_extractSynopsis (md : List Char) (maxLength : Nat) :
    (md.length < maxLength → extractSynopsis md maxLength = toPlainText md) ∧
    ((toPlainText md).length > maxLength →
      (extractSynopsis md maxLength).length ≤ maxLength + 3 ∧
      ∃ pre, extractSynopsis md maxLength = pre ++ ['.', '.', '.']) ∧
    (∀ ls, (toPlainText md).length > maxLength →
      lastSpaceIdx (toPlainText md) maxLength = some ls →
      5 * ls > 4 * maxLength →
      extractSynopsis md maxLength
        = trimWs ((toPlainText md).take ls) ++ ['.', '.', '.']) := by
  refine ⟨?_, ?_, ?_⟩
  · intro hlen
    exact extractSynopsis_short md maxLength
      (by have := toPlainText_length_le md; omega)
  · intro h
    obtain ⟨bp, hbp, heq⟩ := extractSynopsis_trunc md maxLength h
    constructor
    · rw [heq]
      have h1 := trimWs_length_le ((toPlainText md).take bp)
      have h2 := List.length_take_le bp (toPlainText md)
      simp only [List.length_append, List.length_cons, List.length_nil]
      omega
    · exact ⟨_, heq⟩
  · intro ls h hls hgt
    have hmd : md ≠ [] := by
      intro he
      rw [he, toPlainText_nil] at h
      simp at h
    unfold extractSynopsis
    rw [if_neg hmd]
    simp only [if_pos h, hls]
    simp [hgt]

/-- C3 witness: the amended theorem applied to a short input and to a long
input whose last space lies beyond 80% of maxLength. -/
theorem c3_witness :
    extractSynopsis "hello".data 10 = toPlainText "hello".data ∧
    extractSynopsis "aaaa bbbb cccc dddd".data 10
      = trimWs ((toPlainText "aaaa bbbb cccc dddd".data).take 9)
        ++ ['.', '.', '.'] := by
  constructor
  · exact (c3_extractSynopsis "hello".data 10).1 (by decide)
  · exact (c3_extractSynopsis "aaaa bbbb cccc dddd".data 10).2.2 9
      (by decide) (by decide) (by decide)

/-- C9: when the derived plain text is longer than maxLength the output is a
prefix plus the literal three-character "...", so its length is at most
maxLength + 3; and the truncation decision is taken on the derived plain
text's length, not the raw input's — a plain text that fits is returned
unchanged however long the raw markdown was. -/
theorem c9_synopsis_decision (md : List Char) (maxLength : Nat) :
    ((toPlainText md).length > maxLength →
      (extractSynopsis md maxLength).length ≤ maxLength + 3 ∧
      ∃ pre, extractSynopsis md maxLength = pre ++ ['.', '.', '.']) ∧
    ((toPlainText md).length ≤ maxLength →
      extractSynopsis md maxLength = toPlainText md) := by
  constructor
  · intro h
    obtain ⟨bp, hbp, heq⟩ := extractSynopsis_trunc md maxLength h
    constructor
    · rw [heq]
      have h1 := trimWs_length_le ((toPlainText md).take bp)
      have h2 := List.length_take_le bp (toPlainText md)
      simp only [List.length_append, List.length_cons, List.length_nil]
      omega
    · exact ⟨_, heq⟩
  · exact extractSynopsis_short md maxLength

/-- C9 witness: a raw input of 25 characters whose plain text is the single
character "x" is not truncated at maxLength 20 (the decision is on the plain
text), and the spaceless long input is truncated with the three-character
ellipsis. -/
theorem c9_witness :
    extractSynopsis "`abcdefghij``abcdefghij`x".data 20
      = toPlainText "`abcdefghij``abcdefghij`x".data ∧
    (extractSynopsis "aaaabbbbccccdddd".data 10).length ≤ 10 + 3 := by
  constructor
  · exact (c9_synopsis_decision _ 20).2 (by decide)
  · exact ((c9_synopsis_decision "aaaabbbbccccdddd".data 10).1 (by decide)).1

/-! ## Claim C6: markdownToHtml (render) -/

/-- A node of the rendered document, a single-level node list: a text node,
or an element with attributes and a text body. Modelled from the spec: the
markdown engine (the external marked library) and the sanitizer (the
external DOMPurify library) are not part of this repository's sources; only
their configuration in markdownUtils is. -/
inductive HtmlNode where
  | text (s : String)
  | elem (tag : String) (attrs : List (String × String)) (body : String)
deriving DecidableEq, Repr

/-- FORBID_TAGS of the source configuration. -/
def FORBID_TAGS : List String := ["script", "style", "form", "input", "button"]

/-- ADD_TAGS of the source configuration. -/
def ADD_TAGS : List String :=
  ["iframe", "table", "thead", "tbody", "tr", "th", "td", "pre", "code"]

/-- ADD_ATTR of the source configuration. -/
def ADD_ATTR : List String :=
  ["allow", "allowfullscreen", "frameborder", "scrolling", "class", "style"]

/-- Modelled from the spec: the sanitizer's default-safe baseline tag
allow-list, abridged to the common formatting tags the renderer emits. -/
def BASELINE_TAGS : List String :=
  ["p", "a", "strong", "em", "b", "i", "u", "ul", "ol", "li", "h1", "h2",
   "h3", "h4", "h5", "h6", "blockquote", "br", "img", "span", "div"]

/-- Modelled from the spec: the sanitizer's baseline attribute allow-list,
abridged. -/
def BASELINE_ATTR : List String :=
  ["href", "src", "alt", "title", "width", "height"]

/-- An inline event-handler attribute (onclick, onerror, onload, ...); the
spec has the sanitizer strip every one of them regardless of allow-list. -/
def isEventHandlerAttr (name : String) : Bool :=
  "on".isPrefixOf name

/-- Modelled from the spec: the sanitizer drops a forbidden element with its
content (as DOMPurify does for script/style), keeps an allow-listed element
with its attributes filtered to allow-listed non-event-handler ones, and
keeps only the content of an unknown element. Text passes through. -/
def sanitizeNode : HtmlNode → Option HtmlNode
  | .text s => some (.text s)
  | .elem tag attrs body =>
    if tag ∈ FORBID_TAGS then none
    else if tag ∈ BASELINE_TAGS ++ ADD_TAGS then
      some (.elem tag
        (attrs.filter fun a =>
          a.fst ∈ BASELINE_ATTR ++ ADD_ATTR ∧ ¬ isEventHandlerAttr a.fst)
        body)
    else some (.text body)

/-- Sanitization of a node list. -/
def sanitize (ns : List HtmlNode) : List HtmlNode :=
  ns.filterMap sanitizeNode

/-- The text before and after the first occurrence of the pattern. -/
def splitAtSeqPair (pat : List Char) : List Char → Option (List Char × List Char)
  | [] => if pat = [] then some ([], []) else none
  | c :: cs =>
    if pat.isPrefixOf (c :: cs) then some ([], (c :: cs).drop pat.length)
    else
      match splitAtSeqPair pat cs with
      | some (pre, post) => some (c :: pre, post)
      | none => none

/-- Flush accumulated text (kept reversed) into a node list. -/
def flushText (acc : List Char) : List HtmlNode :=
  if acc = [] then [] else [.text (String.mk acc.reverse)]

/-- Modelled from the spec: the markdown engine (marked, gfm with breaks) as
far as the claims exercise it — a raw HTML element with a matching close tag
passes through to the sanitizer as an element whose body is the enclosed
text, a double-asterisk span becomes a strong (bold-emphasis) element, and
everything else is text. Fuel is the input length; every step consumes at
least one character. -/
def parseMdGo : Nat → List Char → List Char → List HtmlNode
  | 0, acc, cs =>
    flushText acc ++ (if cs = [] then [] else [HtmlNode.text (String.mk cs)])
  | _ + 1, acc, [] => flushText acc
  | fuel + 1, acc, c :: cs =>
    if c = '<' then
      match splitAtChar '>' cs with
      | some (tagName, afterOpen) =>
        match splitAtSeqPair ('<' :: '/' :: (tagName ++ ['>'])) afterOpen with
        | some (body, afterClose) =>
          flushText acc ++ [HtmlNode.elem (String.mk tagName) [] (String.mk body)]
            ++ parseMdGo fuel [] afterClose
        | none => parseMdGo fuel (c :: acc) cs
      | none => parseMdGo fuel (c :: acc) cs
    else if c = '*' then
      match cs with
      | c2 :: cs2 =>
        if c2 = '*' then
          match splitAtSeqPair ['*', '*'] cs2 with
          | some (body, after) =>
            flushText acc ++ [HtmlNode.elem "strong" [] (String.mk body)]
              ++ parseMdGo fuel [] after
          | none => parseMdGo fuel (c :: acc) cs
        else parseMdGo fuel (c :: acc) cs
      | [] => parseMdGo fuel (c :: acc) cs
    else parseMdGo fuel (c :: acc) cs

/-- The markdown-engine model at full fuel. -/
def parseMarkdownModel (md : String) : List HtmlNode :=
  parseMdGo md.data.length [] md.data

/-- render: markdown conversion followed by sanitization; empty input short
circuits to the empty document, as the source's falsy guard does. -/
def markdownToHtml (md : String) : List HtmlNode :=
  if md = "" then [] else sanitize (parseMarkdownModel md)

/-- Emission of a node list back to HTML text. -/
def emitNode : HtmlNode → String
  | .text s => s
  | .elem tag attrs body =>
    "<" ++ tag
      ++ String.join (attrs.map fun a => " " ++ a.fst ++ "=\"" ++ a.snd ++ "\"")
      ++ ">" ++ body ++ "</" ++ tag ++ ">"

/-- Emission of a whole document. -/
def emitHtml (ns : List HtmlNode) : String :=
  String.join (ns.map emitNode)

/-- Whether the document contains an element with the given tag. -/
def hasTag (ns : List HtmlNode) (t : String) : Bool :=
  ns.any fun n =>
    match n with
    | .elem tag _ _ => tag = t
    | .text _ => false

/-- C6: for every markdown input, the rendered document contains no element
whose tag is forbidden (script/style/form/input/button) and no
event-handler attribute on any kept element; render("") emits "";
render("<script>alert(1)</script>**bold**") contains no script element but
does contain a strong (bold-emphasis) element with body "bold". -/
theorem c6_render_sanitized (md : String) :
    (∀ n ∈ markdownToHtml md, ∀ tag attrs body,
      n = HtmlNode.elem tag attrs body →
      tag ∉ FORBID_TAGS ∧ ∀ a ∈ attrs, isEventHandlerAttr a.fst = false) ∧
    emitHtml (markdownToHtml "") = "" ∧
    hasTag (markdownToHtml "<script>alert(1)</script>**bold**") "script"
      = false ∧
    HtmlNode.elem "strong" [] "bold"
      ∈ markdownToHtml "<script>alert(1)</script>**bold**" := by
  refine ⟨?_, rfl, by decide, by decide⟩
  intro n hn tag attrs body hne
  subst hne
  by_cases hmd : md = ""
  · rw [hmd] at hn
    simp [markdownToHtml] at hn
  · rw [markdownToHtml, if_neg hmd] at hn
    obtain ⟨m, hm, hsan⟩ := List.mem_filterMap.mp hn
    cases m with
    | text s => simp [sanitizeNode] at hsan
    | elem t a b =>
      simp only [sanitizeNode] at hsan
      split at hsan
      · cases hsan
      · split at hsan
        · cases hsan
          constructor
          · assumption
          · intro x hx
            have := (List.mem_filter.mp hx).2
            simp only [decide_eq_true_eq] at this
            simpa using this.2
        · cases hsan

/-- C6 witness: the sanitization theorem applied to the strong element the
concrete example produces. -/
theorem c6_witness :
    "strong" ∉ FORBID_TAGS ∧
    ∀ a ∈ ([] : List (String × String)), isEventHandlerAttr a.fst = false := by
  exact (c6_render_sanitized "<script>alert(1)</script>**bold**").1
    (HtmlNode.elem "strong" [] "bold") (by decide) "strong" [] "bold" rfl
